import Mathlib

/-!
# Verification of the enhanced data-provider failover manager

A shallow embedding of the multi-provider data-access layer of the
`stock_advisory_ai` repository:

* `src/data/providers/enhanced_provider_manager.py`
  (`EnhancedDataProviderManager`: provider selection, health tracking,
  retry/failover protocol), and
* `src/data/providers/base_provider.py`
  (`BaseDataProvider`: rate-limit gate, symbol normalization cache), with
* `src/data/providers/fyers_provider.py` (`FyersProvider.normalize_symbol`).

Provider names are `String`s (the manager keys providers by lower-cased
name).  Per-provider dictionaries of the manager (`provider_health`,
`failure_counts`, `recovery_notified`, `retry_attempts`) are modelled as
total functions `String → _`; every registered provider gets these entries
on registration, so the total-function model agrees with the source on all
registered names.  Wall-clock fields (`last_failure_time`,
`last_request_time`) carry no decision logic relevant to the verified
claims beyond the boolean "too soon since last request" test, which is
passed in as an explicit boolean.  Data-bearing results of operations are
abstracted to a type parameter `α`.
-/

namespace StockAdvisory

/-- `ProviderHealth` enum from `enhanced_provider_manager.py`. -/
inductive ProviderHealth where
  | healthy
  | degraded
  | failed
  | recovering
  | unknown
deriving DecidableEq, Repr

/-- The slice of `config/provider_config.py` (and its `MockConfig` fallback)
that the manager consults: default provider, priority order, failover flag,
retry budget and the recovery-notification flag. -/
structure Config where
  defaultProvider : String
  priorityOrder : List String
  failoverEnabled : Bool
  retryAttempts : Nat
  notifyRecovery : Bool
deriving Repr

/-- Point update of a total map keyed by provider name (models assignment
into one of the manager's per-provider dictionaries). -/
def upd {α : Type} (f : String → α) (k : String) (v : α) : String → α :=
  fun x => if x = k then v else f x

/-- Mutable state of `EnhancedDataProviderManager`: the provider registry
(registration order, as iterated by `self.providers.items()`), the derived
priority order, manual selection state and the per-provider health
dictionaries. -/
structure ManagerState where
  providers : List String
  providerOrder : List String
  preferredProvider : Option String
  currentProvider : Option String
  providerHealth : String → ProviderHealth
  failureCounts : String → Nat
  recoveryNotified : String → Bool
  retryAttemptsMap : String → Nat

/-- `_update_provider_order`: the priority order from configuration,
restricted to registered providers. -/
def updateProviderOrder (cfg : Config) (s : ManagerState) : ManagerState :=
  { s with providerOrder := cfg.priorityOrder.filter (fun n => s.providers.contains n) }

/-- `_is_provider_healthy`: registered, health not `failed`, and the
provider's `is_available()` returns true.  The availability oracle `avail`
stands for the `is_available()` call on the named provider. -/
def isProviderHealthy (avail : String → Bool) (s : ManagerState) (name : String) : Bool :=
  s.providers.contains name &&
  !(s.providerHealth name == ProviderHealth.failed) &&
  avail name

/-- The tail of `_select_best_provider` (steps 3-5): scan the priority
order for a healthy provider, then any available registered provider, else
clear `current_provider` and report failure. -/
def selectFromOrder (avail : String → Bool) (s : ManagerState) : ManagerState × Bool :=
  match s.providerOrder.find? (fun n => isProviderHealthy avail s n) with
  | some n => ({ s with currentProvider := some n }, true)
  | none =>
    match s.providers.find? (fun n => avail n) with
    | some n => ({ s with currentProvider := some n }, true)
    | none => ({ s with currentProvider := none }, false)

/-- `_select_best_provider`: preferred provider if healthy; else (only when
no preferred provider is set) the configured default if registered and
healthy; else fall to the priority-order scan. -/
def selectBestProvider (cfg : Config) (avail : String → Bool) (s : ManagerState) :
    ManagerState × Bool :=
  match s.preferredProvider with
  | some p =>
    if isProviderHealthy avail s p then ({ s with currentProvider := some p }, true)
    else selectFromOrder avail s
  | none =>
    if s.providers.contains cfg.defaultProvider &&
       isProviderHealthy avail s cfg.defaultProvider then
      ({ s with currentProvider := some cfg.defaultProvider }, true)
    else selectFromOrder avail s

/-- `current_index` computed at the top of `_switch_to_next_provider`:
the index of the current provider in the priority order, `-1` when unset
or not listed. -/
def currentIndex (s : ManagerState) : Int :=
  match s.currentProvider with
  | some c => if s.providerOrder.contains c then (s.providerOrder.indexOf c : Int) else -1
  | none => -1

/-- `_switch_to_next_provider`: when failover is enabled, scan the priority
order strictly after the current provider's index for a healthy provider
and make it current; report whether a switch happened. -/
def switchToNextProvider (cfg : Config) (avail : String → Bool) (s : ManagerState) :
    ManagerState × Bool :=
  if cfg.failoverEnabled then
    match (s.providerOrder.drop (currentIndex s + 1).toNat).find?
        (fun n => isProviderHealthy avail s n) with
    | some n => ({ s with currentProvider := some n }, true)
    | none => (s, false)
  else (s, false)

/-- `_record_success`: reset failure count and retry count, set health to
healthy, and fire the one-shot recovery notification when the provider was
previously `failed`, notification is configured, and not yet notified.
The returned boolean is the "back online" notification being emitted. -/
def recordSuccess (cfg : Config) (s : ManagerState) (name : String) : ManagerState × Bool :=
  let notify := s.providerHealth name == ProviderHealth.failed &&
    cfg.notifyRecovery && !(s.recoveryNotified name)
  ({ s with
      failureCounts := upd s.failureCounts name 0,
      retryAttemptsMap := upd s.retryAttemptsMap name 0,
      providerHealth := upd s.providerHealth name ProviderHealth.healthy,
      recoveryNotified := if notify then upd s.recoveryNotified name true else s.recoveryNotified },
   notify)

/-- `_record_failure`: increment the failure count; at 5 or more failures
mark the provider `failed` and re-arm the recovery notification; at 3 or
more mark it `degraded`; otherwise leave health unchanged. -/
def recordFailure (s : ManagerState) (name : String) : ManagerState :=
  let fc := s.failureCounts name + 1
  let s1 := { s with failureCounts := upd s.failureCounts name fc }
  if 5 ≤ fc then
    { s1 with
        providerHealth := upd s1.providerHealth name ProviderHealth.failed,
        recoveryNotified := upd s1.recoveryNotified name false }
  else if 3 ≤ fc then
    { s1 with providerHealth := upd s1.providerHealth name ProviderHealth.degraded }
  else s1

/-- `reset_provider_health(name)` (single-provider form): administrative
reset of counters and health for a registered provider. -/
def resetProviderHealth (s : ManagerState) (name : String) : ManagerState :=
  if s.providers.contains name then
    { s with
        failureCounts := upd s.failureCounts name 0,
        retryAttemptsMap := upd s.retryAttemptsMap name 0,
        providerHealth := upd s.providerHealth name ProviderHealth.unknown,
        recoveryNotified := upd s.recoveryNotified name false }
  else s

/-! ## The operation-execution protocol (`_try_with_intelligent_fallback`) -/

/-- The provider-raised exception classes distinguished by the fallback
protocol.  `generic` stands for `DataProviderError` and every other
exception caught by the final `except Exception` clause.  The `Nat` token
identifies a concrete raised error so "the last error encountered" is
expressible. -/
inductive PyError where
  | rateLimit (tok : Nat)
  | authError (tok : Nat)
  | generic (tok : Nat)
deriving DecidableEq, Repr

/-- Outcome of one invocation of the wrapped operation on one provider:
normal return, `DataNotFoundError`, or a raised error. -/
inductive OpOutcome (α : Type) where
  | ok (v : α)
  | notFound
  | fail (e : PyError)
deriving DecidableEq, Repr

/-- Result of `_try_with_intelligent_fallback` as observed by its caller:
a returned value, a returned `None` (from `DataNotFoundError`), a
re-raised provider error, a `DataProviderError` raised by the manager
itself, or an unhandled `KeyError` (current provider missing from the
registry — unreachable from states produced by the selection logic). -/
inductive CallResult (α : Type) where
  | ok (v : α)
  | noneResult
  | raised (e : PyError)
  | raisedManager (msg : String)
  | crash
deriving DecidableEq, Repr

/-- Whether the call ended in a raised exception (provider error re-raised
or the manager's own `DataProviderError`). -/
def CallResult.isRaise {α : Type} : CallResult α → Bool
  | .raised _ => true
  | .raisedManager _ => true
  | _ => false

/-- Everything observable about one run of the retry/cascade loop: the
call result, the final manager state, the next fresh call index, the
number of successful provider switches performed, and the providers
invoked in order. -/
structure RunResult (α : Type) where
  result : CallResult α
  state : ManagerState
  nextCallIdx : Nat
  switchCount : Nat
  calls : List String

/-- The code after the loop: re-raise the last error when one was
recorded, else raise the manager's own `DataProviderError`. -/
def finishRaise {α : Type} (opName : String) : Option PyError → CallResult α
  | some e => CallResult.raised e
  | none => CallResult.raisedManager ("All providers failed for " ++ opName)

/-- The `for attempt in range(self.max_retries + 1)` loop of
`_try_with_intelligent_fallback`.  `fuel` is the number of loop iterations
still permitted (initially `max_retries + 1`); `ci` is a global call
counter making the abstract operation `op : Nat → String → OpOutcome α`
deterministic per invocation; `le` is `last_error`.

Branch per the source:
* success: `_record_success`, return the result;
* `DataNotFoundError`: return `None`, no state change;
* `RateLimitError` / `AuthenticationError`: `_record_failure`, then
  switch; on switch success continue the loop (with one fewer iteration
  left), on failure break and raise the last error;
* any other exception: `_record_failure`; when this is not the final
  permitted iteration, retry the same provider; on the final iteration,
  switch providers — and, switched or not, the loop then ends and the
  last error is raised (the `range` is exhausted; the new provider is
  not invoked). -/
def runAttempts {α : Type} (cfg : Config) (avail : String → Bool) (opName : String)
    (op : Nat → String → OpOutcome α) :
    Nat → Nat → ManagerState → Option PyError → RunResult α
  | 0, ci, s, le => ⟨finishRaise opName le, s, ci, 0, []⟩
  | fuel + 1, ci, s, _le =>
    match s.currentProvider with
    | none => ⟨CallResult.crash, s, ci, 0, []⟩
    | some cur =>
      if s.providers.contains cur then
        match op ci cur with
        | OpOutcome.ok v =>
          ⟨CallResult.ok v, (recordSuccess cfg s cur).1, ci + 1, 0, [cur]⟩
        | OpOutcome.notFound =>
          ⟨CallResult.noneResult, s, ci + 1, 0, [cur]⟩
        | OpOutcome.fail e =>
          let s1 := recordFailure s cur
          match e with
          | PyError.generic _ =>
            if 0 < fuel then
              let r := runAttempts cfg avail opName op fuel (ci + 1) s1 (some e)
              ⟨r.result, r.state, r.nextCallIdx, r.switchCount, cur :: r.calls⟩
            else
              let sw := switchToNextProvider cfg avail s1
              ⟨finishRaise opName (some e), sw.1, ci + 1, if sw.2 then 1 else 0, [cur]⟩
          | _ =>
            let sw := switchToNextProvider cfg avail s1
            if sw.2 then
              let r := runAttempts cfg avail opName op fuel (ci + 1) sw.1 (some e)
              ⟨r.result, r.state, r.nextCallIdx, r.switchCount + 1, cur :: r.calls⟩
            else
              ⟨finishRaise opName (some e), sw.1, ci + 1, 0, [cur]⟩
      else ⟨CallResult.crash, s, ci, 0, []⟩

/-- `_try_with_intelligent_fallback` (post-initialization): select the
best provider (raising `DataProviderError` when none is selectable), then
run the retry/cascade loop for `max_retries + 1` iterations. -/
def tryWithIntelligentFallback {α : Type} (cfg : Config) (avail : String → Bool)
    (opName : String) (op : Nat → String → OpOutcome α) (s : ManagerState) : RunResult α :=
  let sel := selectBestProvider cfg avail s
  if sel.2 then runAttempts cfg avail opName op (cfg.retryAttempts + 1) 0 sel.1 none
  else ⟨CallResult.raisedManager "No available providers", sel.1, 0, 0, []⟩

/-- The caller-facing wrappers `get_stock_info` / `get_historical_data`
(post-initialization): run the fallback protocol inside
`try: ... except Exception: return None` — every raised exception is
caught and converted to `None`. -/
def publicCall {α : Type} (cfg : Config) (avail : String → Bool) (opName : String)
    (op : Nat → String → OpOutcome α) (s : ManagerState) : Option α × ManagerState :=
  let r := tryWithIntelligentFallback cfg avail opName op s
  match r.result with
  | CallResult.ok v => (some v, r.state)
  | _ => (none, r.state)

/-! ## Provider-level state: the rate-limit gate (`base_provider.py`) -/

/-- `DataProviderStatus` enum from `base_provider.py`. -/
inductive DataProviderStatus where
  | active
  | rate_limited
  | error
  | inactive
deriving DecidableEq, Repr

/-- The fields of `BaseDataProvider` consulted and mutated by
`check_rate_limit` / `is_available`.  The "at least `rate_limit_delay`
seconds since the last request" test compares wall-clock floats; it enters
the model as the explicit boolean argument `tooSoon` (false whenever
`last_request_time` is unset). -/
structure ProviderState where
  status : DataProviderStatus
  requestsToday : Nat
  dailyRequestLimit : Nat
  errorCount : Nat
  maxErrors : Nat
deriving DecidableEq, Repr

/-- `check_rate_limit`: when the daily request cap is reached, set status
to `rate_limited` and report false; else report false while within the
inter-request delay, else true.  Returns (result, updated provider). -/
def check_rate_limit (tooSoon : Bool) (p : ProviderState) : Bool × ProviderState :=
  if p.dailyRequestLimit ≤ p.requestsToday then
    (false, { p with status := DataProviderStatus.rate_limited })
  else if tooSoon then (false, p)
  else (true, p)

/-- `is_available`: `status in [ACTIVE, INACTIVE] and check_rate_limit()`.
Python's `and` short-circuits, so the (effectful) rate-limit check runs
only when the status test passes. -/
def is_available (tooSoon : Bool) (p : ProviderState) : Bool × ProviderState :=
  if p.status = DataProviderStatus.active ∨ p.status = DataProviderStatus.inactive then
    check_rate_limit tooSoon p
  else (false, p)

/-! ## Symbol normalization (`base_provider.py`, `fyers_provider.py`) -/

/-- The per-provider normalization caches `_symbol_cache` (key
`symbol + "_" + exchange` to provider symbol) and `_reverse_cache`
(provider symbol to clean symbol).  Insertion is modelled by consing; the
first match wins on lookup, which agrees with Python dict assignment
(latest value for a key). -/
structure SymbolCache where
  forwardCache : List (String × String)
  reverseCache : List (String × String)
deriving DecidableEq, Repr

/-- The empty caches of a freshly constructed provider. -/
def SymbolCache.empty : SymbolCache := ⟨[], []⟩

/-- Python dict lookup over the cons-modelled dictionary. -/
def lookupAssoc : List (String × String) → String → Option String
  | [], _ => none
  | (k, v) :: rest, key => if key = k then some v else lookupAssoc rest key

/-- `BaseDataProvider.normalize_symbol`: consult the forward cache; on a
miss call the provider hook `_provider_normalize_symbol` and populate both
caches (the reverse cache maps the provider symbol back to the ORIGINAL
input symbol, not its upper-cased form). -/
def normalize_symbol (hook : String → String → String) (c : SymbolCache)
    (symbol exchange : String) : String × SymbolCache :=
  let cacheKey := symbol ++ "_" ++ exchange
  match lookupAssoc c.forwardCache cacheKey with
  | some v => (v, c)
  | none =>
    let normalized := hook symbol exchange
    (normalized,
     { forwardCache := (cacheKey, normalized) :: c.forwardCache,
       reverseCache := (normalized, symbol) :: c.reverseCache })

/-- `BaseDataProvider.denormalize_symbol`: consult the reverse cache; on a
miss call the provider hook `_provider_denormalize_symbol` and populate
both caches (forward entry keyed under exchange `NSE`). -/
def denormalize_symbol (hook : String → String) (c : SymbolCache)
    (providerSymbol : String) : String × SymbolCache :=
  match lookupAssoc c.reverseCache providerSymbol with
  | some v => (v, c)
  | none =>
    let clean := hook providerSymbol
    (clean,
     { forwardCache := (clean ++ "_NSE", providerSymbol) :: c.forwardCache,
       reverseCache := (providerSymbol, clean) :: c.reverseCache })

/-- The default `_provider_normalize_symbol` hook: identity.  Shoonya,
MStock and Sample providers do not override it. -/
def baseNormalizeHook (symbol : String) (_exchange : String) : String := symbol

/-- The default `_provider_denormalize_symbol` hook: identity.  No
provider overrides it. -/
def baseDenormalizeHook (providerSymbol : String) : String := providerSymbol

/-- `FyersProvider.normalize_symbol`: overrides the PUBLIC method (not the
hook), returning the Fyers wire format directly and bypassing the caches
entirely. -/
def fyersNormalizeSymbol (symbol : String) (exchange : String) : String :=
  exchange ++ ":" ++ symbol ++ "-EQ"

/-- Python `str.upper()` on the ASCII ticker alphabet used by symbols. -/
def pyUpperChar (c : Char) : Char :=
  if 97 ≤ c.toNat ∧ c.toNat ≤ 122 then Char.ofNat (c.toNat - 32) else c

/-- Python `str.upper()` for symbols (ASCII), character by character. -/
def pyUpper (s : String) : String := String.mk (s.data.map pyUpperChar)

/-! ## Auxiliary iteration definitions used by the behavioural claims -/

/-- `k` consecutive recorded failures for provider `n`. -/
def recordFailuresIter (n : String) : Nat → ManagerState → ManagerState
  | 0, s => s
  | k + 1, s => recordFailuresIter n k (recordFailure s n)

/-- The number of recovery notifications emitted across `k` consecutive
recorded successes for provider `n`. -/
def successRunFires (cfg : Config) (n : String) : Nat → ManagerState → Nat
  | 0, _ => 0
  | k + 1, s =>
    (if (recordSuccess cfg s n).2 then 1 else 0) +
      successRunFires cfg n k (recordSuccess cfg s n).1

/-! ## Basic lemmas about the per-provider bookkeeping -/

theorem upd_same {α : Type} (f : String → α) (k : String) (v : α) : upd f k v k = v := by
  simp [upd]

theorem recordFailure_count (s : ManagerState) (n : String) :
    (recordFailure s n).failureCounts n = s.failureCounts n + 1 := by
  unfold recordFailure
  dsimp only
  split_ifs <;> simp [upd]

theorem recordFailure_frame (s : ManagerState) (n : String) :
    (recordFailure s n).providers = s.providers ∧
    (recordFailure s n).providerOrder = s.providerOrder ∧
    (recordFailure s n).currentProvider = s.currentProvider ∧
    (recordFailure s n).preferredProvider = s.preferredProvider := by
  unfold recordFailure
  dsimp only
  split_ifs <;> simp

theorem recordFailure_health_degraded (s : ManagerState) (n : String)
    (h : s.failureCounts n + 1 = 3 ∨ s.failureCounts n + 1 = 4) :
    (recordFailure s n).providerHealth n = ProviderHealth.degraded := by
  unfold recordFailure
  dsimp only
  split_ifs <;> simp_all [upd] <;> omega

theorem recordFailure_health_failed (s : ManagerState) (n : String)
    (h : 5 ≤ s.failureCounts n + 1) :
    (recordFailure s n).providerHealth n = ProviderHealth.failed := by
  unfold recordFailure
  dsimp only
  split_ifs <;> simp_all [upd]

theorem recordFailure_rearms_notification (s : ManagerState) (n : String)
    (h : 5 ≤ s.failureCounts n + 1) :
    (recordFailure s n).recoveryNotified n = false := by
  unfold recordFailure
  dsimp only
  split_ifs <;> simp_all [upd]

theorem recordFailuresIter_count (n : String) (k : Nat) (s : ManagerState) :
    (recordFailuresIter n k s).failureCounts n = s.failureCounts n + k := by
  induction k generalizing s with
  | zero => simp [recordFailuresIter]
  | succ k ih =>
    rw [recordFailuresIter, ih, recordFailure_count]
    omega

theorem recordSuccess_resets (cfg : Config) (s : ManagerState) (n : String) :
    (recordSuccess cfg s n).1.providerHealth n = ProviderHealth.healthy ∧
    (recordSuccess cfg s n).1.failureCounts n = 0 := by
  simp [recordSuccess, upd]

theorem recordSuccess_fires_iff (cfg : Config) (s : ManagerState) (n : String) :
    (recordSuccess cfg s n).2 =
      (s.providerHealth n == ProviderHealth.failed &&
        cfg.notifyRecovery && !(s.recoveryNotified n)) := rfl

theorem recordSuccess_no_fire_of_not_failed (cfg : Config) (s : ManagerState) (n : String)
    (h : s.providerHealth n ≠ ProviderHealth.failed) :
    (recordSuccess cfg s n).2 = false := by
  rw [recordSuccess_fires_iff]
  simp [h]

theorem successRunFires_zero_of_not_failed (cfg : Config) (n : String) (k : Nat)
    (s : ManagerState) (h : s.providerHealth n ≠ ProviderHealth.failed) :
    successRunFires cfg n k s = 0 := by
  induction k generalizing s with
  | zero => rfl
  | succ k ih =>
    rw [successRunFires, recordSuccess_no_fire_of_not_failed cfg s n h]
    simp only [if_neg Bool.false_ne_true, Nat.zero_add]
    exact ih _ (by simp [(recordSuccess_resets cfg s n).1])

/-! ## Claim theorems: health bookkeeping (C5, C6) -/

/-- **C5**: per provider, each recorded failure increments `failure_count`
by one (so it is non-decreasing across any run of consecutive failures,
`recordFailuresIter`), the resulting health is `degraded` exactly when the
new count is 3 or 4 and `failed` whenever it is at least 5, any recorded
success sets health to `healthy` with the count reset to 0, and the
administrative reset clears the count for a registered provider. -/
theorem failure_count_monotone_health_classified (cfg : Config) (s : ManagerState)
    (n : String) (k : Nat) :
    (recordFailure s n).failureCounts n = s.failureCounts n + 1 ∧
    (recordFailuresIter n k s).failureCounts n = s.failureCounts n + k ∧
    ((recordFailure s n).failureCounts n = 3 ∨ (recordFailure s n).failureCounts n = 4 →
      (recordFailure s n).providerHealth n = ProviderHealth.degraded) ∧
    (5 ≤ (recordFailure s n).failureCounts n →
      (recordFailure s n).providerHealth n = ProviderHealth.failed) ∧
    (recordSuccess cfg s n).1.providerHealth n = ProviderHealth.healthy ∧
    (recordSuccess cfg s n).1.failureCounts n = 0 ∧
    (s.providers.contains n = true → (resetProviderHealth s n).failureCounts n = 0) := by
  refine ⟨recordFailure_count s n, recordFailuresIter_count n k s, ?_, ?_, ?_, ?_, ?_⟩
  · intro h
    exact recordFailure_health_degraded s n (by rw [recordFailure_count] at h; exact h)
  · intro h
    exact recordFailure_health_failed s n (by rw [recordFailure_count] at h; exact h)
  · exact (recordSuccess_resets cfg s n).1
  · exact (recordSuccess_resets cfg s n).2
  · intro h
    have h2 : n ∈ s.providers := by simpa using h
    simp [resetProviderHealth, h2, upd]

/-- Witness for **C5** at a concrete provider state with two prior
failures: the third failure yields count 3 and `degraded` health. -/
theorem failure_count_monotone_health_classified_witness :
    (recordFailure
        ⟨["fyers"], ["fyers"], none, some "fyers",
         fun _ => ProviderHealth.unknown, fun _ => 2, fun _ => false, fun _ => 0⟩
        "fyers").failureCounts "fyers" = 3 ∧
    (recordFailure
        ⟨["fyers"], ["fyers"], none, some "fyers",
         fun _ => ProviderHealth.unknown, fun _ => 2, fun _ => false, fun _ => 0⟩
        "fyers").providerHealth "fyers" = ProviderHealth.degraded ∧
    (resetProviderHealth
        ⟨["fyers"], ["fyers"], none, some "fyers",
         fun _ => ProviderHealth.unknown, fun _ => 2, fun _ => false, fun _ => 0⟩
        "fyers").failureCounts "fyers" = 0 := by
  have h := failure_count_monotone_health_classified
    ⟨"fyers", ["fyers"], true, 3, true⟩
    ⟨["fyers"], ["fyers"], none, some "fyers",
     fun _ => ProviderHealth.unknown, fun _ => 2, fun _ => false, fun _ => 0⟩
    "fyers" 1
  refine ⟨h.1, h.2.2.1 (Or.inl h.1), h.2.2.2.2.2.2 (by decide)⟩

/-- **C6**: with recovery notification enabled, from a `failed` provider
whose notification is re-armed, the first recorded success fires the
notification and latches `recovery_notified`; across any positive number
of consecutive successes it fires exactly once; a success on a provider
that is not `failed` never fires; and re-entering `failed` (a failure
reaching count 5) re-arms the latch. -/
theorem recovery_notification_fires_once (cfg : Config) (s : ManagerState) (n : String)
    (k : Nat) (hn : cfg.notifyRecovery = true)
    (hf : s.providerHealth n = ProviderHealth.failed)
    (ha : s.recoveryNotified n = false) :
    (recordSuccess cfg s n).2 = true ∧
    (recordSuccess cfg s n).1.recoveryNotified n = true ∧
    successRunFires cfg n (k + 1) s = 1 ∧
    (∀ s2 : ManagerState, s2.providerHealth n ≠ ProviderHealth.failed →
      (recordSuccess cfg s2 n).2 = false) ∧
    (∀ s3 : ManagerState, 5 ≤ s3.failureCounts n + 1 →
      (recordFailure s3 n).recoveryNotified n = false) := by
  have hfire : (recordSuccess cfg s n).2 = true := by
    rw [recordSuccess_fires_iff, hf, ha, hn]
    rfl
  refine ⟨hfire, ?_, ?_, ?_, ?_⟩
  · show (recordSuccess cfg s n).1.recoveryNotified n = true
    unfold recordSuccess
    dsimp only
    rw [show (s.providerHealth n == ProviderHealth.failed &&
        cfg.notifyRecovery && !(s.recoveryNotified n)) = true from hfire]
    simp [upd]
  · rw [successRunFires, hfire]
    have : (recordSuccess cfg s n).1.providerHealth n ≠ ProviderHealth.failed := by
      simp [(recordSuccess_resets cfg s n).1]
    rw [successRunFires_zero_of_not_failed cfg n k _ this]
    simp
  · intro s2 h2
    exact recordSuccess_no_fire_of_not_failed cfg s2 n h2
  · intro s3 h3
    exact recordFailure_rearms_notification s3 n h3

/-- Witness for **C6** at a concrete failed provider: two consecutive
successes emit exactly one recovery notification. -/
theorem recovery_notification_fires_once_witness :
    (recordSuccess ⟨"fyers", ["fyers"], true, 3, true⟩
        ⟨["fyers"], ["fyers"], none, some "fyers",
         fun _ => ProviderHealth.failed, fun _ => 5, fun _ => false, fun _ => 0⟩
        "fyers").2 = true ∧
    successRunFires ⟨"fyers", ["fyers"], true, 3, true⟩ "fyers" 2
        ⟨["fyers"], ["fyers"], none, some "fyers",
         fun _ => ProviderHealth.failed, fun _ => 5, fun _ => false, fun _ => 0⟩ = 1 := by
  have h := recovery_notification_fires_once
    ⟨"fyers", ["fyers"], true, 3, true⟩
    ⟨["fyers"], ["fyers"], none, some "fyers",
     fun _ => ProviderHealth.failed, fun _ => 5, fun _ => false, fun _ => 0⟩
    "fyers" 1 rfl rfl rfl
  exact ⟨h.1, h.2.2.1⟩

/-! ## Claim theorems: not-found isolation (C4) -/

/-- **C4**: when the current provider raises `DataNotFoundError`, the
fallback loop returns `None` immediately with the manager state EXACTLY
unchanged — in particular the provider's `failure_count`, its health and
`current_provider` are untouched and no switch occurs. -/
theorem data_not_found_returns_none_unchanged {α : Type} (cfg : Config)
    (avail : String → Bool) (opName : String) (op : Nat → String → OpOutcome α)
    (fuel ci : Nat) (s : ManagerState) (le : Option PyError) (cur : String)
    (h1 : s.currentProvider = some cur)
    (h2 : s.providers.contains cur = true)
    (h3 : op ci cur = OpOutcome.notFound) :
    runAttempts cfg avail opName op (fuel + 1) ci s le
      = ⟨CallResult.noneResult, s, ci + 1, 0, [cur]⟩ := by
  rw [runAttempts, h1]
  simp only [h2, if_true, h3]

/-- Witness for **C4**: concrete two-provider state, a `DataNotFoundError`
on the first call. -/
theorem data_not_found_returns_none_unchanged_witness :
    runAttempts ⟨"fyers", ["fyers", "shoonya"], true, 3, true⟩ (fun _ => true)
        "get_stock_info" (fun _ _ => (OpOutcome.notFound : OpOutcome Nat)) (3 + 1) 0
        ⟨["fyers", "shoonya"], ["fyers", "shoonya"], none, some "fyers",
         fun _ => ProviderHealth.unknown, fun _ => 0, fun _ => false, fun _ => 0⟩ none
      = ⟨CallResult.noneResult,
         ⟨["fyers", "shoonya"], ["fyers", "shoonya"], none, some "fyers",
          fun _ => ProviderHealth.unknown, fun _ => 0, fun _ => false, fun _ => 0⟩,
         1, 0, ["fyers"]⟩ :=
  data_not_found_returns_none_unchanged ⟨"fyers", ["fyers", "shoonya"], true, 3, true⟩
    (fun _ => true) "get_stock_info" (fun _ _ => (OpOutcome.notFound : OpOutcome Nat)) 3 0
    ⟨["fyers", "shoonya"], ["fyers", "shoonya"], none, some "fyers",
     fun _ => ProviderHealth.unknown, fun _ => 0, fun _ => false, fun _ => 0⟩ none
    "fyers" rfl rfl rfl

/-! ## Claim theorems: the availability gate is effectful (C10) -/

/-- **C10**: `is_available` is not a pure query.  Whenever
`requests_today` has reached `daily_request_limit`, the embedded
`check_rate_limit` call sets `status` to `rate_limited` (leaving every
other field unchanged, as the record update shows) and reports false; once
the status is `rate_limited`, every further `is_available` call returns
false without touching the state, until the status is reset externally. -/
theorem is_available_sets_rate_limited (p : ProviderState) (tooSoon : Bool)
    (h : p.dailyRequestLimit ≤ p.requestsToday) :
    check_rate_limit tooSoon p
        = (false, { p with status := DataProviderStatus.rate_limited }) ∧
    (p.status = DataProviderStatus.active ∨ p.status = DataProviderStatus.inactive →
      is_available tooSoon p
        = (false, { p with status := DataProviderStatus.rate_limited })) ∧
    (∀ (t2 : Bool) (q : ProviderState), q.status = DataProviderStatus.rate_limited →
      is_available t2 q = (false, q)) := by
  refine ⟨by simp [check_rate_limit, h], ?_, ?_⟩
  · intro hst
    rw [is_available, if_pos hst]
    simp [check_rate_limit, h]
  · intro t2 q hq
    rw [is_available, if_neg]
    rw [hq]
    rintro (h1 | h1) <;> exact absurd h1 (by simp)

/-- Witness for **C10**: a provider at its daily cap; the gate flips it to
`rate_limited` and stays false afterwards. -/
theorem is_available_sets_rate_limited_witness :
    check_rate_limit false ⟨DataProviderStatus.active, 1000, 1000, 0, 5⟩
        = (false, ⟨DataProviderStatus.rate_limited, 1000, 1000, 0, 5⟩) ∧
    is_available false ⟨DataProviderStatus.active, 1000, 1000, 0, 5⟩
        = (false, ⟨DataProviderStatus.rate_limited, 1000, 1000, 0, 5⟩) ∧
    is_available true ⟨DataProviderStatus.rate_limited, 1000, 1000, 0, 5⟩
        = (false, ⟨DataProviderStatus.rate_limited, 1000, 1000, 0, 5⟩) := by
  have h := is_available_sets_rate_limited
    ⟨DataProviderStatus.active, 1000, 1000, 0, 5⟩ false (by decide)
  exact ⟨h.1, h.2.1 (Or.inl rfl), h.2.2 true _ rfl⟩

/-! ## Claim theorems: the symbol round trip (C8, corrected) -/

/-- Counterexample to **C8** as stated: for `FyersProvider` (which
overrides the public `normalize_symbol`, bypassing the caches, while
inheriting the base `denormalize_symbol`), the round trip on the valid
symbol `"RELIANCE"` with exchange `"NSE"` yields `"NSE:RELIANCE-EQ"`,
not `"RELIANCE".upper()`. -/
theorem fyers_round_trip_not_upper :
    (denormalize_symbol baseDenormalizeHook SymbolCache.empty
        (fyersNormalizeSymbol "RELIANCE" "NSE")).1 ≠ pyUpper "RELIANCE" := by
  decide

/-- **C8 (amended)**: for providers using the inherited base-class
normalization (Shoonya, MStock, Sample — identity hooks) starting from an
empty cache, the round trip returns the original symbol unchanged, which
equals `s.upper()` exactly when `s` is already upper-case; for Fyers the
round trip returns the provider-format string `exchange + ":" + s + "-EQ"`
because its cache-bypassing `normalize_symbol` never populates the reverse
cache consulted by the inherited `denormalize_symbol`. -/
theorem round_trip_identity_hook_returns_input (sym exch : String) :
    (denormalize_symbol baseDenormalizeHook
        (normalize_symbol baseNormalizeHook SymbolCache.empty sym exch).2
        (normalize_symbol baseNormalizeHook SymbolCache.empty sym exch).1).1 = sym ∧
    (pyUpper sym = sym →
      (denormalize_symbol baseDenormalizeHook
          (normalize_symbol baseNormalizeHook SymbolCache.empty sym exch).2
          (normalize_symbol baseNormalizeHook SymbolCache.empty sym exch).1).1
        = pyUpper sym) ∧
    (denormalize_symbol baseDenormalizeHook SymbolCache.empty
        (fyersNormalizeSymbol sym exch)).1 = exch ++ ":" ++ sym ++ "-EQ" := by
  have hbase : (denormalize_symbol baseDenormalizeHook
      (normalize_symbol baseNormalizeHook SymbolCache.empty sym exch).2
      (normalize_symbol baseNormalizeHook SymbolCache.empty sym exch).1).1 = sym := by
    simp [normalize_symbol, denormalize_symbol, lookupAssoc, baseNormalizeHook,
      SymbolCache.empty]
  exact ⟨hbase, fun hup => by rw [hbase, hup], rfl⟩

/-- Witness for **C8 (amended)** at symbol `"RELIANCE"`, exchange
`"NSE"`. -/
theorem round_trip_identity_hook_returns_input_witness :
    (denormalize_symbol baseDenormalizeHook
        (normalize_symbol baseNormalizeHook SymbolCache.empty "RELIANCE" "NSE").2
        (normalize_symbol baseNormalizeHook SymbolCache.empty "RELIANCE" "NSE").1).1
      = pyUpper "RELIANCE" :=
  (round_trip_identity_hook_returns_input "RELIANCE" "NSE").2.1 (by decide)

/-! ## Claim theorems: generic-error cascade (C2, a code bug) -/

/-- A run in which provider `"fyers"` always raises a generic
`DataProviderError` while `"shoonya"` always returns data. -/
def opGenericThenOk : Nat → String → OpOutcome Nat :=
  fun ci n => if n = "shoonya" then OpOutcome.ok 42 else OpOutcome.fail (PyError.generic ci)

/-- **C2**: the claim (retry the operation against the newly switched-to
provider once the local retry budget is exhausted) is what the source's
own comment — "Max retries reached, try next provider" — and the spec
demand, but the code does NOT do it: with default `retry_attempts = 3`,
after four generic failures of `"fyers"` the manager switches
`current_provider` to the healthy `"shoonya"` and then falls out of the
exhausted `for attempt in range(...)` loop, raising the last error.  The
operation ends with the last generic error raised, `"shoonya"` switched-to
yet never invoked, even though invoking it would have returned data. -/
theorem exhausted_retry_switch_skips_new_provider :
    (tryWithIntelligentFallback ⟨"fyers", ["fyers", "shoonya"], true, 3, true⟩
        (fun _ => true) "get_historical_data" opGenericThenOk
        ⟨["fyers", "shoonya"], ["fyers", "shoonya"], none, some "fyers",
         fun _ => ProviderHealth.unknown, fun _ => 0, fun _ => false, fun _ => 0⟩).result
      = CallResult.raised (PyError.generic 3) ∧
    (tryWithIntelligentFallback ⟨"fyers", ["fyers", "shoonya"], true, 3, true⟩
        (fun _ => true) "get_historical_data" opGenericThenOk
        ⟨["fyers", "shoonya"], ["fyers", "shoonya"], none, some "fyers",
         fun _ => ProviderHealth.unknown, fun _ => 0, fun _ => false, fun _ => 0⟩).state.currentProvider
      = some "shoonya" ∧
    (tryWithIntelligentFallback ⟨"fyers", ["fyers", "shoonya"], true, 3, true⟩
        (fun _ => true) "get_historical_data" opGenericThenOk
        ⟨["fyers", "shoonya"], ["fyers", "shoonya"], none, some "fyers",
         fun _ => ProviderHealth.unknown, fun _ => 0, fun _ => false, fun _ => 0⟩).calls
      = ["fyers", "fyers", "fyers", "fyers"] ∧
    "shoonya" ∉ (tryWithIntelligentFallback ⟨"fyers", ["fyers", "shoonya"], true, 3, true⟩
        (fun _ => true) "get_historical_data" opGenericThenOk
        ⟨["fyers", "shoonya"], ["fyers", "shoonya"], none, some "fyers",
         fun _ => ProviderHealth.unknown, fun _ => 0, fun _ => false, fun _ => 0⟩).calls ∧
    opGenericThenOk 4 "shoonya" = OpOutcome.ok 42 := by
  refine ⟨by decide, by rfl, by decide, by decide, by decide⟩

/-! ## Claim theorems: the selection ranking (C1) -/


theorem find?_filter_eq (L : List String) (q p : String → Bool) :
    (L.filter q).find? p = L.find? (fun n => q n && p n) := by
  induction L with
  | nil => rfl
  | cons x xs ih =>
    cases hq : q x <;> cases hp : p x <;>
      simp [List.filter_cons, List.find?_cons, hq, hp, ih]

theorem healthy_absorbs_contains (avail : String → Bool) (s : ManagerState) :
    (fun n => s.providers.contains n && isProviderHealthy avail s n)
      = fun n => isProviderHealthy avail s n := by
  funext n
  show (s.providers.contains n && isProviderHealthy avail s n) = isProviderHealthy avail s n
  unfold isProviderHealthy
  cases hc : s.providers.contains n <;> simp

/-- **Spec-side definition (from the claim's words, not the source)**: the
fixed selection ranking C1 states — manual pin (registered, not failed,
available), else (only when no pin is set) the configured default
(registered, not failed, available), else the first registered provider in
the CONFIGURED priority order that is not failed and available, else any
registered provider whose `is_available()` holds (the source iterates the
registry in registration order, which determinizes "any"), else none. -/
def claimedSelection (cfg : Config) (avail : String → Bool) (s : ManagerState) : Option String :=
  match s.preferredProvider with
  | some p =>
    if s.providers.contains p && !(s.providerHealth p == ProviderHealth.failed) && avail p
    then some p
    else claimedScan cfg avail s
  | none =>
    if s.providers.contains cfg.defaultProvider &&
       !(s.providerHealth cfg.defaultProvider == ProviderHealth.failed) &&
       avail cfg.defaultProvider
    then some cfg.defaultProvider
    else claimedScan cfg avail s
where
  claimedScan (cfg : Config) (avail : String → Bool) (s : ManagerState) : Option String :=
    match cfg.priorityOrder.find? (fun n =>
        s.providers.contains n && !(s.providerHealth n == ProviderHealth.failed) && avail n) with
    | some n => some n
    | none => s.providers.find? (fun n => avail n)

/-- **C1**: provider selection follows the claimed fixed ranking: the
code's `_select_best_provider` computes exactly `claimedSelection` (given
that `provider_order` is the configured priority filtered to registered
providers, as `_update_provider_order` maintains), reports success exactly
when the ranking yields a provider, and when the ranking yields none the
operation raises `DataProviderError`. -/
theorem selection_follows_ranking {α : Type} (cfg : Config) (avail : String → Bool)
    (opName : String) (op : Nat → String → OpOutcome α) (s : ManagerState)
    (hord : s.providerOrder = cfg.priorityOrder.filter (fun n => s.providers.contains n)) :
    (selectBestProvider cfg avail s).1.currentProvider = claimedSelection cfg avail s ∧
    (selectBestProvider cfg avail s).2 = (claimedSelection cfg avail s).isSome ∧
    (claimedSelection cfg avail s = none →
      (tryWithIntelligentFallback cfg avail opName op s).result
        = CallResult.raisedManager "No available providers") := by
  have hscan : s.providerOrder.find? (fun n => isProviderHealthy avail s n)
      = cfg.priorityOrder.find? (fun n => isProviderHealthy avail s n) := by
    rw [hord]
    simp only [find?_filter_eq]
    exact congrArg (fun f => List.find? f cfg.priorityOrder) (healthy_absorbs_contains avail s)
  have hfrom :
      (selectFromOrder avail s).1.currentProvider = claimedSelection.claimedScan cfg avail s ∧
      (selectFromOrder avail s).2 = (claimedSelection.claimedScan cfg avail s).isSome := by
    unfold selectFromOrder claimedSelection.claimedScan
    rw [show (fun n => s.providers.contains n &&
        !(s.providerHealth n == ProviderHealth.failed) && avail n)
        = (fun n => isProviderHealthy avail s n) from rfl]
    rw [hscan]
    rcases hfind : cfg.priorityOrder.find? (fun n => isProviderHealthy avail s n) with _ | n
    · rcases hany : s.providers.find? (fun n => avail n) with _ | m <;> simp
    · simp
  have h12 :
      (selectBestProvider cfg avail s).1.currentProvider = claimedSelection cfg avail s ∧
      (selectBestProvider cfg avail s).2 = (claimedSelection cfg avail s).isSome := by
    unfold selectBestProvider claimedSelection
    rcases hpref : s.preferredProvider with _ | p <;> dsimp only
    · rw [show ((s.providers.contains cfg.defaultProvider &&
          !(s.providerHealth cfg.defaultProvider == ProviderHealth.failed) &&
          avail cfg.defaultProvider))
          = (s.providers.contains cfg.defaultProvider &&
             isProviderHealthy avail s cfg.defaultProvider) from ?_]
      · cases hd : s.providers.contains cfg.defaultProvider &&
            isProviderHealthy avail s cfg.defaultProvider
        · simp only [hd, if_false, Bool.false_eq_true]
          exact hfrom
        · simp [hd]
      · unfold isProviderHealthy
        cases hc : s.providers.contains cfg.defaultProvider <;> simp
    · rw [show ((s.providers.contains p &&
          !(s.providerHealth p == ProviderHealth.failed) && avail p))
          = isProviderHealthy avail s p from rfl]
      cases hp : isProviderHealthy avail s p
      · simp only [hp, if_false, Bool.false_eq_true]
        exact hfrom
      · simp [hp]
  refine ⟨h12.1, h12.2, ?_⟩
  intro hnone
  have h2 : (selectBestProvider cfg avail s).2 = false := by
    rw [h12.2, hnone]
    rfl
  unfold tryWithIntelligentFallback
  simp only [h2, Bool.false_eq_true, if_false]

/-- Witness for **C1**: with a healthy preferred provider `"shoonya"` set,
the selection picks it ahead of the default `"fyers"`. -/
theorem selection_follows_ranking_witness :
    (selectBestProvider ⟨"fyers", ["fyers", "shoonya"], true, 3, true⟩ (fun _ => true)
        ⟨["fyers", "shoonya"], ["fyers", "shoonya"], some "shoonya", some "fyers",
         fun _ => ProviderHealth.unknown, fun _ => 0, fun _ => false, fun _ => 0⟩).1.currentProvider
      = claimedSelection ⟨"fyers", ["fyers", "shoonya"], true, 3, true⟩ (fun _ => true)
        ⟨["fyers", "shoonya"], ["fyers", "shoonya"], some "shoonya", some "fyers",
         fun _ => ProviderHealth.unknown, fun _ => 0, fun _ => false, fun _ => 0⟩ ∧
    claimedSelection ⟨"fyers", ["fyers", "shoonya"], true, 3, true⟩ (fun _ => true)
        ⟨["fyers", "shoonya"], ["fyers", "shoonya"], some "shoonya", some "fyers",
         fun _ => ProviderHealth.unknown, fun _ => 0, fun _ => false, fun _ => 0⟩
      = some "shoonya" := by
  have h := selection_follows_ranking (α := Nat)
    ⟨"fyers", ["fyers", "shoonya"], true, 3, true⟩ (fun _ => true) "get_stock_info"
    (fun _ _ => OpOutcome.notFound)
    ⟨["fyers", "shoonya"], ["fyers", "shoonya"], some "shoonya", some "fyers",
     fun _ => ProviderHealth.unknown, fun _ => 0, fun _ => false, fun _ => 0⟩
    (by decide)
  exact ⟨h.1, by decide⟩

/-! ## Infrastructure for the failover-loop claims (C2, C3, C7, C9) -/

theorem run_step_notFound {α : Type} (cfg : Config) (avail : String → Bool)
    (opName : String) (op : Nat → String → OpOutcome α) (fuel ci : Nat) (s : ManagerState)
    (le : Option PyError) (cur : String) (hcur : s.currentProvider = some cur)
    (hreg : s.providers.contains cur = true) (hop : op ci cur = OpOutcome.notFound) :
    runAttempts cfg avail opName op (fuel + 1) ci s le
      = ⟨CallResult.noneResult, s, ci + 1, 0, [cur]⟩ := by
  rw [runAttempts, hcur]
  simp only [hreg, if_true, hop]

/-- Position of a provider in a priority list, `-1` when absent. -/
def posOf (L : List String) (n : String) : Int :=
  if L.contains n then (L.indexOf n : Int) else -1

theorem le_indexOf_of_mem_drop (L : List String) (m : Nat) (n : String)
    (hd : L.Nodup) (h : n ∈ L.drop m) : m ≤ L.indexOf n := by
  induction L generalizing m with
  | nil => simp at h
  | cons x xs ih =>
    cases m with
    | zero => exact Nat.zero_le _
    | succ m =>
      have hx : n ∈ xs.drop m := h
      have hmem : n ∈ xs := List.mem_of_mem_drop hx
      have hne : x ≠ n := by
        rintro rfl
        exact (List.nodup_cons.mp hd).1 hmem
      rw [List.indexOf_cons_ne _ hne]
      exact Nat.succ_le_succ (ih m (List.nodup_cons.mp hd).2 hx)

theorem currentIndex_ge_neg_one (s : ManagerState) : -1 ≤ currentIndex s := by
  unfold currentIndex
  rcases hc : s.currentProvider with _ | c
  · dsimp only
    omega
  · dsimp only
    split_ifs
    · omega
    · omega

theorem currentIndex_lt_length (s : ManagerState) :
    currentIndex s < (s.providerOrder.length : Int) := by
  unfold currentIndex
  rcases hcp : s.currentProvider with _ | c
  · dsimp only
    omega
  · dsimp only
    split_ifs with hc
    · exact_mod_cast List.indexOf_lt_length.mpr (by simpa using hc)
    · omega

theorem currentIndex_congr (s1 s : ManagerState)
    (h1 : s1.currentProvider = s.currentProvider)
    (h2 : s1.providerOrder = s.providerOrder) : currentIndex s1 = currentIndex s := by
  unfold currentIndex
  rw [h1, h2]

theorem currentIndex_eq_posOf (s : ManagerState) (cur : String)
    (h : s.currentProvider = some cur) : currentIndex s = posOf s.providerOrder cur := by
  unfold currentIndex posOf
  rw [h]

theorem isProviderHealthy_spec (avail : String → Bool) (s : ManagerState) (n : String)
    (h : isProviderHealthy avail s n = true) :
    s.providers.contains n = true ∧ s.providerHealth n ≠ ProviderHealth.failed ∧
      avail n = true := by
  unfold isProviderHealthy at h
  rcases Bool.and_eq_true_iff.mp h with ⟨h12, h3⟩
  rcases Bool.and_eq_true_iff.mp h12 with ⟨h1, h2⟩
  refine ⟨h1, ?_, h3⟩
  simpa using h2

theorem switch_cases (cfg : Config) (avail : String → Bool) (s : ManagerState) :
    ((switchToNextProvider cfg avail s).2 = false ∧ (switchToNextProvider cfg avail s).1 = s) ∨
    ((switchToNextProvider cfg avail s).2 = true ∧ cfg.failoverEnabled = true ∧
      ∃ n, (switchToNextProvider cfg avail s).1 = { s with currentProvider := some n } ∧
        n ∈ s.providerOrder.drop (currentIndex s + 1).toNat ∧
        isProviderHealthy avail s n = true) := by
  unfold switchToNextProvider
  split_ifs with hf
  · rcases hfind : (s.providerOrder.drop (currentIndex s + 1).toNat).find?
        (fun n => isProviderHealthy avail s n) with _ | n
    · exact Or.inl ⟨rfl, rfl⟩
    · exact Or.inr ⟨rfl, hf, n, rfl, List.mem_of_find?_eq_some hfind, List.find?_some hfind⟩
  · exact Or.inl ⟨rfl, rfl⟩

theorem switch_success_facts (cfg : Config) (avail : String → Bool) (s : ManagerState)
    (hd : s.providerOrder.Nodup)
    (hsw : (switchToNextProvider cfg avail s).2 = true) :
    (switchToNextProvider cfg avail s).1.providerOrder = s.providerOrder ∧
    (switchToNextProvider cfg avail s).1.providers = s.providers ∧
    currentIndex s < currentIndex (switchToNextProvider cfg avail s).1 ∧
    ∃ n, (switchToNextProvider cfg avail s).1.currentProvider = some n ∧
      n ∈ s.providerOrder ∧ currentIndex s < posOf s.providerOrder n ∧
      isProviderHealthy avail s n = true := by
  rcases switch_cases cfg avail s with ⟨h2, _⟩ | ⟨_, _, n, h1, hmem, hh⟩
  · rw [h2] at hsw
    cases hsw
  · have hmemL : n ∈ s.providerOrder := List.mem_of_mem_drop hmem
    have hcont : s.providerOrder.contains n = true := by simpa using hmemL
    have hidx : (currentIndex s + 1).toNat ≤ s.providerOrder.indexOf n :=
      le_indexOf_of_mem_drop _ _ _ hd hmem
    have hge : -1 ≤ currentIndex s := currentIndex_ge_neg_one s
    have hpos : currentIndex s < posOf s.providerOrder n := by
      unfold posOf
      rw [if_pos hcont]
      omega
    have hci : currentIndex (switchToNextProvider cfg avail s).1 = posOf s.providerOrder n := by
      rw [h1]
      rfl
    refine ⟨by rw [h1], by rw [h1], ?_, n, by rw [h1], hmemL, hpos, hh⟩
    rw [hci]
    exact hpos


theorem run_step_none {α : Type} (cfg : Config) (avail : String → Bool) (opName : String)
    (op : Nat → String → OpOutcome α) (fuel ci : Nat) (s : ManagerState) (le : Option PyError)
    (hcur : s.currentProvider = none) :
    runAttempts cfg avail opName op (fuel + 1) ci s le = ⟨CallResult.crash, s, ci, 0, []⟩ := by
  rw [runAttempts, hcur]

theorem run_step_unreg {α : Type} (cfg : Config) (avail : String → Bool) (opName : String)
    (op : Nat → String → OpOutcome α) (fuel ci : Nat) (s : ManagerState) (le : Option PyError)
    (cur : String) (hcur : s.currentProvider = some cur)
    (hreg : s.providers.contains cur = false) :
    runAttempts cfg avail opName op (fuel + 1) ci s le = ⟨CallResult.crash, s, ci, 0, []⟩ := by
  rw [runAttempts, hcur]
  simp only [hreg, Bool.false_eq_true, if_false]

theorem run_step_ok {α : Type} (cfg : Config) (avail : String → Bool) (opName : String)
    (op : Nat → String → OpOutcome α) (fuel ci : Nat) (s : ManagerState) (le : Option PyError)
    (cur : String) (v : α) (hcur : s.currentProvider = some cur)
    (hreg : s.providers.contains cur = true) (hop : op ci cur = OpOutcome.ok v) :
    runAttempts cfg avail opName op (fuel + 1) ci s le
      = ⟨CallResult.ok v, (recordSuccess cfg s cur).1, ci + 1, 0, [cur]⟩ := by
  rw [runAttempts, hcur]
  simp only [hreg, if_true, hop]

theorem run_step_generic_retry {α : Type} (cfg : Config) (avail : String → Bool)
    (opName : String) (op : Nat → String → OpOutcome α) (fuel ci : Nat) (s : ManagerState)
    (le : Option PyError) (cur : String) (t : Nat) (hcur : s.currentProvider = some cur)
    (hreg : s.providers.contains cur = true)
    (hop : op ci cur = OpOutcome.fail (PyError.generic t)) (hfuel : 0 < fuel) :
    runAttempts cfg avail opName op (fuel + 1) ci s le
      = ⟨(runAttempts cfg avail opName op fuel (ci + 1) (recordFailure s cur)
            (some (PyError.generic t))).result,
         (runAttempts cfg avail opName op fuel (ci + 1) (recordFailure s cur)
            (some (PyError.generic t))).state,
         (runAttempts cfg avail opName op fuel (ci + 1) (recordFailure s cur)
            (some (PyError.generic t))).nextCallIdx,
         (runAttempts cfg avail opName op fuel (ci + 1) (recordFailure s cur)
            (some (PyError.generic t))).switchCount,
         cur :: (runAttempts cfg avail opName op fuel (ci + 1) (recordFailure s cur)
            (some (PyError.generic t))).calls⟩ := by
  rw [runAttempts, hcur]
  simp only [hreg, if_true, hop]
  rw [if_pos hfuel]

theorem run_step_generic_last {α : Type} (cfg : Config) (avail : String → Bool)
    (opName : String) (op : Nat → String → OpOutcome α) (ci : Nat) (s : ManagerState)
    (le : Option PyError) (cur : String) (t : Nat) (hcur : s.currentProvider = some cur)
    (hreg : s.providers.contains cur = true)
    (hop : op ci cur = OpOutcome.fail (PyError.generic t)) :
    runAttempts cfg avail opName op (0 + 1) ci s le
      = ⟨CallResult.raised (PyError.generic t),
         (switchToNextProvider cfg avail (recordFailure s cur)).1, ci + 1,
         if (switchToNextProvider cfg avail (recordFailure s cur)).2 then 1 else 0,
         [cur]⟩ := by
  rw [runAttempts, hcur]
  simp only [hreg, if_true, hop]
  rw [if_neg (by omega)]
  rfl

theorem run_step_rate_switch {α : Type} (cfg : Config) (avail : String → Bool)
    (opName : String) (op : Nat → String → OpOutcome α) (fuel ci : Nat) (s : ManagerState)
    (le : Option PyError) (cur : String) (t : Nat) (hcur : s.currentProvider = some cur)
    (hreg : s.providers.contains cur = true)
    (hop : op ci cur = OpOutcome.fail (PyError.rateLimit t))
    (hsw : (switchToNextProvider cfg avail (recordFailure s cur)).2 = true) :
    runAttempts cfg avail opName op (fuel + 1) ci s le
      = ⟨(runAttempts cfg avail opName op fuel (ci + 1)
            (switchToNextProvider cfg avail (recordFailure s cur)).1
            (some (PyError.rateLimit t))).result,
         (runAttempts cfg avail opName op fuel (ci + 1)
            (switchToNextProvider cfg avail (recordFailure s cur)).1
            (some (PyError.rateLimit t))).state,
         (runAttempts cfg avail opName op fuel (ci + 1)
            (switchToNextProvider cfg avail (recordFailure s cur)).1
            (some (PyError.rateLimit t))).nextCallIdx,
         (runAttempts cfg avail opName op fuel (ci + 1)
            (switchToNextProvider cfg avail (recordFailure s cur)).1
            (some (PyError.rateLimit t))).switchCount + 1,
         cur :: (runAttempts cfg avail opName op fuel (ci + 1)
            (switchToNextProvider cfg avail (recordFailure s cur)).1
            (some (PyError.rateLimit t))).calls⟩ := by
  rw [runAttempts, hcur]
  simp only [hreg, if_true, hop, hsw]

theorem run_step_rate_noswitch {α : Type} (cfg : Config) (avail : String → Bool)
    (opName : String) (op : Nat → String → OpOutcome α) (fuel ci : Nat) (s : ManagerState)
    (le : Option PyError) (cur : String) (t : Nat) (hcur : s.currentProvider = some cur)
    (hreg : s.providers.contains cur = true)
    (hop : op ci cur = OpOutcome.fail (PyError.rateLimit t))
    (hsw : (switchToNextProvider cfg avail (recordFailure s cur)).2 = false) :
    runAttempts cfg avail opName op (fuel + 1) ci s le
      = ⟨CallResult.raised (PyError.rateLimit t),
         (switchToNextProvider cfg avail (recordFailure s cur)).1, ci + 1, 0, [cur]⟩ := by
  rw [runAttempts, hcur]
  simp only [hreg, if_true, hop, hsw, Bool.false_eq_true, if_false]
  rfl

theorem run_step_auth_switch {α : Type} (cfg : Config) (avail : String → Bool)
    (opName : String) (op : Nat → String → OpOutcome α) (fuel ci : Nat) (s : ManagerState)
    (le : Option PyError) (cur : String) (t : Nat) (hcur : s.currentProvider = some cur)
    (hreg : s.providers.contains cur = true)
    (hop : op ci cur = OpOutcome.fail (PyError.authError t))
    (hsw : (switchToNextProvider cfg avail (recordFailure s cur)).2 = true) :
    runAttempts cfg avail opName op (fuel + 1) ci s le
      = ⟨(runAttempts cfg avail opName op fuel (ci + 1)
            (switchToNextProvider cfg avail (recordFailure s cur)).1
            (some (PyError.authError t))).result,
         (runAttempts cfg avail opName op fuel (ci + 1)
            (switchToNextProvider cfg avail (recordFailure s cur)).1
            (some (PyError.authError t))).state,
         (runAttempts cfg avail opName op fuel (ci + 1)
            (switchToNextProvider cfg avail (recordFailure s cur)).1
            (some (PyError.authError t))).nextCallIdx,
         (runAttempts cfg avail opName op fuel (ci + 1)
            (switchToNextProvider cfg avail (recordFailure s cur)).1
            (some (PyError.authError t))).switchCount + 1,
         cur :: (runAttempts cfg avail opName op fuel (ci + 1)
            (switchToNextProvider cfg avail (recordFailure s cur)).1
            (some (PyError.authError t))).calls⟩ := by
  rw [runAttempts, hcur]
  simp only [hreg, if_true, hop, hsw]

theorem run_step_auth_noswitch {α : Type} (cfg : Config) (avail : String → Bool)
    (opName : String) (op : Nat → String → OpOutcome α) (fuel ci : Nat) (s : ManagerState)
    (le : Option PyError) (cur : String) (t : Nat) (hcur : s.currentProvider = some cur)
    (hreg : s.providers.contains cur = true)
    (hop : op ci cur = OpOutcome.fail (PyError.authError t))
    (hsw : (switchToNextProvider cfg avail (recordFailure s cur)).2 = false) :
    runAttempts cfg avail opName op (fuel + 1) ci s le
      = ⟨CallResult.raised (PyError.authError t),
         (switchToNextProvider cfg avail (recordFailure s cur)).1, ci + 1, 0, [cur]⟩ := by
  rw [runAttempts, hcur]
  simp only [hreg, if_true, hop, hsw, Bool.false_eq_true, if_false]
  rfl

/-- Across the whole retry/cascade loop, every provider that gets called
sits at a position in the priority order no earlier than the position of
the provider that was current when the loop (segment) started: the loop
never moves backwards through the priority order. -/
theorem calls_pos_monotone {α : Type} (cfg : Config) (avail : String → Bool)
    (opName : String) (op : Nat → String → OpOutcome α) :
    ∀ (fuel ci : Nat) (s : ManagerState) (le : Option PyError), s.providerOrder.Nodup →
      ∀ c ∈ (runAttempts cfg avail opName op fuel ci s le).calls,
        currentIndex s ≤ posOf s.providerOrder c := by
  intro fuel
  induction fuel with
  | zero =>
    intro ci s le _ c hc
    rw [runAttempts] at hc
    simp at hc
  | succ fuel ih =>
    intro ci s le hd c hc
    rcases hcur : s.currentProvider with _ | cur
    · rw [run_step_none cfg avail opName op fuel ci s le hcur] at hc
      simp at hc
    · have hpos_cur : currentIndex s = posOf s.providerOrder cur :=
        currentIndex_eq_posOf s cur hcur
      by_cases hreg : s.providers.contains cur = true
      · have hfr := recordFailure_frame s cur
        have hordf : (recordFailure s cur).providerOrder = s.providerOrder := hfr.2.1
        have hcif : currentIndex (recordFailure s cur) = currentIndex s :=
          currentIndex_congr _ _ hfr.2.2.1 hordf
        have hdf : (recordFailure s cur).providerOrder.Nodup := by
          rw [hordf]; exact hd
        rcases hop : op ci cur with v | _ | e
        · rw [run_step_ok cfg avail opName op fuel ci s le cur v hcur hreg hop] at hc
          have : c = cur := by simpa using hc
          rw [this, hpos_cur]
        · rw [run_step_notFound cfg avail opName op fuel ci s le cur hcur hreg hop] at hc
          have : c = cur := by simpa using hc
          rw [this, hpos_cur]
        · rcases e with t | t | t
          · by_cases hsw : (switchToNextProvider cfg avail (recordFailure s cur)).2 = true
            · rw [run_step_rate_switch cfg avail opName op fuel ci s le cur t
                  hcur hreg hop hsw] at hc
              simp only [List.mem_cons] at hc
              rcases hc with rfl | hc
              · rw [hpos_cur]
              · have hsf := switch_success_facts cfg avail (recordFailure s cur) hdf hsw
                have hords : (switchToNextProvider cfg avail (recordFailure s cur)).1.providerOrder
                    = s.providerOrder := hsf.1.trans hordf
                have hds : (switchToNextProvider cfg avail
                    (recordFailure s cur)).1.providerOrder.Nodup := by rw [hords]; exact hd
                have hih := ih (ci + 1) _ (some (PyError.rateLimit t)) hds c hc
                rw [hords] at hih
                have hlt := hsf.2.2.1
                rw [hcif] at hlt
                omega
            · rw [run_step_rate_noswitch cfg avail opName op fuel ci s le cur t
                  hcur hreg hop (by simpa using hsw)] at hc
              have : c = cur := by simpa using hc
              rw [this, hpos_cur]
          · by_cases hsw : (switchToNextProvider cfg avail (recordFailure s cur)).2 = true
            · rw [run_step_auth_switch cfg avail opName op fuel ci s le cur t
                  hcur hreg hop hsw] at hc
              simp only [List.mem_cons] at hc
              rcases hc with rfl | hc
              · rw [hpos_cur]
              · have hsf := switch_success_facts cfg avail (recordFailure s cur) hdf hsw
                have hords : (switchToNextProvider cfg avail (recordFailure s cur)).1.providerOrder
                    = s.providerOrder := hsf.1.trans hordf
                have hds : (switchToNextProvider cfg avail
                    (recordFailure s cur)).1.providerOrder.Nodup := by rw [hords]; exact hd
                have hih := ih (ci + 1) _ (some (PyError.authError t)) hds c hc
                rw [hords] at hih
                have hlt := hsf.2.2.1
                rw [hcif] at hlt
                omega
            · rw [run_step_auth_noswitch cfg avail opName op fuel ci s le cur t
                  hcur hreg hop (by simpa using hsw)] at hc
              have : c = cur := by simpa using hc
              rw [this, hpos_cur]
          · cases fuel with
            | zero =>
              rw [run_step_generic_last cfg avail opName op ci s le cur t hcur hreg hop] at hc
              have : c = cur := by simpa using hc
              rw [this, hpos_cur]
            | succ f2 =>
              rw [run_step_generic_retry cfg avail opName op (f2 + 1) ci s le cur t
                  hcur hreg hop (by omega)] at hc
              simp only [List.mem_cons] at hc
              rcases hc with rfl | hc
              · rw [hpos_cur]
              · have hih := ih (ci + 1) _ (some (PyError.generic t)) hdf c hc
                rw [hordf] at hih
                rw [hcif] at hih
                exact hih
      · rw [run_step_unreg cfg avail opName op fuel ci s le cur hcur
            (by simpa using hreg)] at hc
        simp at hc

/-- Each successful switch strictly advances the current position in the
priority order, so the number of successful switches in one run of the
loop is bounded by the length of the priority order. -/
theorem switch_count_bound {α : Type} (cfg : Config) (avail : String → Bool)
    (opName : String) (op : Nat → String → OpOutcome α) :
    ∀ (fuel ci : Nat) (s : ManagerState) (le : Option PyError), s.providerOrder.Nodup →
      (runAttempts cfg avail opName op fuel ci s le).switchCount + (currentIndex s + 1).toNat
        ≤ s.providerOrder.length := by
  intro fuel
  induction fuel with
  | zero =>
    intro ci s le _
    rw [runAttempts]
    have h1 := currentIndex_lt_length s
    have h2 := currentIndex_ge_neg_one s
    dsimp only
    omega
  | succ fuel ih =>
    intro ci s le hd
    have hlen1 := currentIndex_lt_length s
    have hlen2 := currentIndex_ge_neg_one s
    rcases hcur : s.currentProvider with _ | cur
    · rw [run_step_none cfg avail opName op fuel ci s le hcur]
      dsimp only
      omega
    · by_cases hreg : s.providers.contains cur = true
      · have hfr := recordFailure_frame s cur
        have hordf : (recordFailure s cur).providerOrder = s.providerOrder := hfr.2.1
        have hcif : currentIndex (recordFailure s cur) = currentIndex s :=
          currentIndex_congr _ _ hfr.2.2.1 hordf
        have hdf : (recordFailure s cur).providerOrder.Nodup := by
          rw [hordf]; exact hd
        rcases hop : op ci cur with v | _ | e
        · rw [run_step_ok cfg avail opName op fuel ci s le cur v hcur hreg hop]
          dsimp only
          omega
        · rw [run_step_notFound cfg avail opName op fuel ci s le cur hcur hreg hop]
          dsimp only
          omega
        · rcases e with t | t | t
          · by_cases hsw : (switchToNextProvider cfg avail (recordFailure s cur)).2 = true
            · rw [run_step_rate_switch cfg avail opName op fuel ci s le cur t
                  hcur hreg hop hsw]
              have hsf := switch_success_facts cfg avail (recordFailure s cur) hdf hsw
              have hords : (switchToNextProvider cfg avail (recordFailure s cur)).1.providerOrder
                  = s.providerOrder := hsf.1.trans hordf
              have hds : (switchToNextProvider cfg avail
                  (recordFailure s cur)).1.providerOrder.Nodup := by rw [hords]; exact hd
              have hih := ih (ci + 1) _ (some (PyError.rateLimit t)) hds
              rw [hords] at hih
              have hlt := hsf.2.2.1
              rw [hcif] at hlt
              dsimp only
              omega
            · rw [run_step_rate_noswitch cfg avail opName op fuel ci s le cur t
                  hcur hreg hop (by simpa using hsw)]
              dsimp only
              omega
          · by_cases hsw : (switchToNextProvider cfg avail (recordFailure s cur)).2 = true
            · rw [run_step_auth_switch cfg avail opName op fuel ci s le cur t
                  hcur hreg hop hsw]
              have hsf := switch_success_facts cfg avail (recordFailure s cur) hdf hsw
              have hords : (switchToNextProvider cfg avail (recordFailure s cur)).1.providerOrder
                  = s.providerOrder := hsf.1.trans hordf
              have hds : (switchToNextProvider cfg avail
                  (recordFailure s cur)).1.providerOrder.Nodup := by rw [hords]; exact hd
              have hih := ih (ci + 1) _ (some (PyError.authError t)) hds
              rw [hords] at hih
              have hlt := hsf.2.2.1
              rw [hcif] at hlt
              dsimp only
              omega
            · rw [run_step_auth_noswitch cfg avail opName op fuel ci s le cur t
                  hcur hreg hop (by simpa using hsw)]
              dsimp only
              omega
          · cases fuel with
            | zero =>
              rw [run_step_generic_last cfg avail opName op ci s le cur t hcur hreg hop]
              by_cases hsw : (switchToNextProvider cfg avail (recordFailure s cur)).2 = true
              · have hsf := switch_success_facts cfg avail (recordFailure s cur) hdf hsw
                have hords : (switchToNextProvider cfg avail (recordFailure s cur)).1.providerOrder
                    = s.providerOrder := hsf.1.trans hordf
                have hlt := hsf.2.2.1
                rw [hcif] at hlt
                have hlen3 := currentIndex_lt_length
                  (switchToNextProvider cfg avail (recordFailure s cur)).1
                rw [hords] at hlen3
                rw [hsw]
                dsimp only
                rw [if_pos rfl]
                omega
              · rw [show (switchToNextProvider cfg avail (recordFailure s cur)).2 = false by
                  simpa using hsw]
                dsimp only
                rw [if_neg (by simp)]
                omega
            | succ f2 =>
              rw [run_step_generic_retry cfg avail opName op (f2 + 1) ci s le cur t
                  hcur hreg hop (by omega)]
              have hih := ih (ci + 1) _ (some (PyError.generic t)) hdf
              rw [hordf, hcif] at hih
              dsimp only
              exact hih
      · rw [run_step_unreg cfg avail opName op fuel ci s le cur hcur (by simpa using hreg)]
        dsimp only
        omega

/-- When every call raises, the loop always ends by raising (the last
provider error, or the manager's own `DataProviderError`): it never
returns data, never returns `None`, and never crashes — provided the
current provider is registered and the priority order only lists
registered providers, which the selection and switching logic maintain. -/
theorem all_fail_raises {α : Type} (cfg : Config) (avail : String → Bool)
    (opName : String) (op : Nat → String → OpOutcome α)
    (hfail : ∀ (i : Nat) (n : String), ∃ e, op i n = OpOutcome.fail e) :
    ∀ (fuel ci : Nat) (s : ManagerState) (le : Option PyError),
      (∀ c, s.currentProvider = some c → s.providers.contains c = true) →
      (∀ n, n ∈ s.providerOrder → s.providers.contains n = true) →
      s.currentProvider.isSome = true →
      (runAttempts cfg avail opName op fuel ci s le).result.isRaise = true := by
  intro fuel
  induction fuel with
  | zero =>
    intro ci s le _ _ _
    rw [runAttempts]
    rcases le with _ | e <;> rfl
  | succ fuel ih =>
    intro ci s le hinv hsub hsome
    rcases hcur : s.currentProvider with _ | cur
    · rw [hcur] at hsome
      cases hsome
    · have hreg : s.providers.contains cur = true := hinv cur hcur
      have hfr := recordFailure_frame s cur
      have hordf : (recordFailure s cur).providerOrder = s.providerOrder := hfr.2.1
      have hprovf : (recordFailure s cur).providers = s.providers := hfr.1
      rcases hfail ci cur with ⟨e, hop⟩
      rcases e with t | t | t
      · by_cases hsw : (switchToNextProvider cfg avail (recordFailure s cur)).2 = true
        · rw [run_step_rate_switch cfg avail opName op fuel ci s le cur t hcur hreg hop hsw]
          rcases switch_cases cfg avail (recordFailure s cur) with ⟨h2, _⟩ | ⟨_, _, n, h1, hmem, hh⟩
          · rw [h2] at hsw
            cases hsw
          · refine ih (ci + 1) _ (some (PyError.rateLimit t)) ?_ ?_ ?_
            · intro c hcc
              rw [h1] at hcc
              dsimp only at hcc
              injection hcc with hnc
              subst hnc
              rw [h1]
              dsimp only
              rw [hprovf]
              refine hsub n ?_
              have := List.mem_of_mem_drop hmem
              rw [hordf] at this
              exact this
            · intro n2 hn2
              rw [h1] at hn2
              dsimp only at hn2
              rw [hordf] at hn2
              rw [h1]
              dsimp only
              rw [hprovf]
              exact hsub n2 hn2
            · rw [h1]
              rfl
        · rw [run_step_rate_noswitch cfg avail opName op fuel ci s le cur t hcur hreg hop
            (by simpa using hsw)]
          rfl
      · by_cases hsw : (switchToNextProvider cfg avail (recordFailure s cur)).2 = true
        · rw [run_step_auth_switch cfg avail opName op fuel ci s le cur t hcur hreg hop hsw]
          rcases switch_cases cfg avail (recordFailure s cur) with ⟨h2, _⟩ | ⟨_, _, n, h1, hmem, hh⟩
          · rw [h2] at hsw
            cases hsw
          · refine ih (ci + 1) _ (some (PyError.authError t)) ?_ ?_ ?_
            · intro c hcc
              rw [h1] at hcc
              dsimp only at hcc
              injection hcc with hnc
              subst hnc
              rw [h1]
              dsimp only
              rw [hprovf]
              refine hsub n ?_
              have := List.mem_of_mem_drop hmem
              rw [hordf] at this
              exact this
            · intro n2 hn2
              rw [h1] at hn2
              dsimp only at hn2
              rw [hordf] at hn2
              rw [h1]
              dsimp only
              rw [hprovf]
              exact hsub n2 hn2
            · rw [h1]
              rfl
        · rw [run_step_auth_noswitch cfg avail opName op fuel ci s le cur t hcur hreg hop
            (by simpa using hsw)]
          rfl
      · cases fuel with
        | zero =>
          rw [run_step_generic_last cfg avail opName op ci s le cur t hcur hreg hop]
          rfl
        | succ f2 =>
          rw [run_step_generic_retry cfg avail opName op (f2 + 1) ci s le cur t
              hcur hreg hop (by omega)]
          refine ih (ci + 1) _ (some (PyError.generic t)) ?_ ?_ ?_
          · intro c hcc
            rw [hfr.2.2.1, hcur] at hcc
            injection hcc with hnc
            subst hnc
            rw [hprovf]
            exact hreg
          · intro n2 hn2
            rw [hordf] at hn2
            rw [hprovf]
            exact hsub n2 hn2
          · rw [hfr.2.2.1, hcur]
            rfl

theorem recordFailure_preserves_inv (s : ManagerState) (cur : String)
    (hinv : ∀ c, s.currentProvider = some c → s.providers.contains c = true)
    (hsub : ∀ n, n ∈ s.providerOrder → s.providers.contains n = true)
    (hsome : s.currentProvider.isSome = true) :
    (∀ c, (recordFailure s cur).currentProvider = some c →
        (recordFailure s cur).providers.contains c = true) ∧
    (∀ n, n ∈ (recordFailure s cur).providerOrder →
        (recordFailure s cur).providers.contains n = true) ∧
    (recordFailure s cur).currentProvider.isSome = true := by
  have hfr := recordFailure_frame s cur
  refine ⟨?_, ?_, ?_⟩
  · intro c hc
    rw [hfr.2.2.1] at hc
    rw [hfr.1]
    exact hinv c hc
  · intro n hn
    rw [hfr.2.1] at hn
    rw [hfr.1]
    exact hsub n hn
  · rw [hfr.2.2.1]
    exact hsome

theorem switch_preserves_inv (cfg : Config) (avail : String → Bool) (s : ManagerState)
    (hsub : ∀ n, n ∈ s.providerOrder → s.providers.contains n = true)
    (hsw : (switchToNextProvider cfg avail s).2 = true) :
    (∀ c, (switchToNextProvider cfg avail s).1.currentProvider = some c →
        (switchToNextProvider cfg avail s).1.providers.contains c = true) ∧
    (∀ n, n ∈ (switchToNextProvider cfg avail s).1.providerOrder →
        (switchToNextProvider cfg avail s).1.providers.contains n = true) ∧
    (switchToNextProvider cfg avail s).1.currentProvider.isSome = true := by
  rcases switch_cases cfg avail s with ⟨h2, _⟩ | ⟨_, _, n, h1, hmem, _⟩
  · rw [h2] at hsw
    cases hsw
  · have hnord : n ∈ s.providerOrder := List.mem_of_mem_drop hmem
    refine ⟨?_, ?_, ?_⟩
    · intro c hc
      rw [h1] at hc
      dsimp only at hc
      injection hc with hnc
      subst hnc
      rw [h1]
      dsimp only
      exact hsub n hnord
    · intro n2 hn2
      rw [h1] at hn2
      dsimp only at hn2
      rw [h1]
      dsimp only
      exact hsub n2 hn2
    · rw [h1]
      rfl

/-- When every call raises a classified error (the error of call `i` being
`errOf i`), any run of the loop with at least one permitted iteration ends
by re-raising the error of the LAST call it made, and it makes at least
one call. -/
theorem all_fail_last_error {α : Type} (cfg : Config) (avail : String → Bool)
    (opName : String) (op : Nat → String → OpOutcome α) (errOf : Nat → PyError)
    (hop : ∀ (i : Nat) (n : String), op i n = OpOutcome.fail (errOf i)) :
    ∀ (fuel ci : Nat) (s : ManagerState) (le : Option PyError),
      (∀ c, s.currentProvider = some c → s.providers.contains c = true) →
      (∀ n, n ∈ s.providerOrder → s.providers.contains n = true) →
      s.currentProvider.isSome = true →
      1 ≤ fuel →
      (runAttempts cfg avail opName op fuel ci s le).result
          = CallResult.raised (errOf
              ((runAttempts cfg avail opName op fuel ci s le).nextCallIdx - 1)) ∧
      ci + 1 ≤ (runAttempts cfg avail opName op fuel ci s le).nextCallIdx := by
  intro fuel
  induction fuel with
  | zero =>
    intro ci s le _ _ _ hf
    exact absurd hf (by omega)
  | succ fuel ih =>
    intro ci s le hinv hsub hsome _
    rcases hcur : s.currentProvider with _ | cur
    · rw [hcur] at hsome
      cases hsome
    · have hreg : s.providers.contains cur = true := hinv cur hcur
      have hrfinv := recordFailure_preserves_inv s cur hinv hsub hsome
      have hopc := hop ci cur
      rcases herr : errOf ci with t | t | t <;> rw [herr] at hopc
      · by_cases hsw : (switchToNextProvider cfg avail (recordFailure s cur)).2 = true
        · rw [run_step_rate_switch cfg avail opName op fuel ci s le cur t hcur hreg hopc hsw]
          have hswinv := switch_preserves_inv cfg avail (recordFailure s cur) hrfinv.2.1 hsw
          cases fuel with
          | zero =>
            rw [runAttempts]
            dsimp only
            refine ⟨?_, by omega⟩
            have : ci + 1 - 1 = ci := by omega
            rw [this, herr]
            rfl
          | succ f2 =>
            have hihr := ih (ci + 1) _ (some (PyError.rateLimit t))
              hswinv.1 hswinv.2.1 hswinv.2.2 (by omega)
            dsimp only
            exact ⟨hihr.1, by omega⟩
        · rw [run_step_rate_noswitch cfg avail opName op fuel ci s le cur t hcur hreg hopc
            (by simpa using hsw)]
          dsimp only
          refine ⟨?_, by omega⟩
          have : ci + 1 - 1 = ci := by omega
          rw [this, herr]
      · by_cases hsw : (switchToNextProvider cfg avail (recordFailure s cur)).2 = true
        · rw [run_step_auth_switch cfg avail opName op fuel ci s le cur t hcur hreg hopc hsw]
          have hswinv := switch_preserves_inv cfg avail (recordFailure s cur) hrfinv.2.1 hsw
          cases fuel with
          | zero =>
            rw [runAttempts]
            dsimp only
            refine ⟨?_, by omega⟩
            have : ci + 1 - 1 = ci := by omega
            rw [this, herr]
            rfl
          | succ f2 =>
            have hihr := ih (ci + 1) _ (some (PyError.authError t))
              hswinv.1 hswinv.2.1 hswinv.2.2 (by omega)
            dsimp only
            exact ⟨hihr.1, by omega⟩
        · rw [run_step_auth_noswitch cfg avail opName op fuel ci s le cur t hcur hreg hopc
            (by simpa using hsw)]
          dsimp only
          refine ⟨?_, by omega⟩
          have : ci + 1 - 1 = ci := by omega
          rw [this, herr]
      · cases fuel with
        | zero =>
          rw [run_step_generic_last cfg avail opName op ci s le cur t hcur hreg hopc]
          dsimp only
          refine ⟨?_, by omega⟩
          have : ci + 1 - 1 = ci := by omega
          rw [this, herr]
        | succ f2 =>
          rw [run_step_generic_retry cfg avail opName op (f2 + 1) ci s le cur t
              hcur hreg hopc (by omega)]
          have hihr := ih (ci + 1) _ (some (PyError.generic t))
            hrfinv.1 hrfinv.2.1 hrfinv.2.2 (by omega)
          dsimp only
          exact ⟨hihr.1, by omega⟩

theorem switch_disabled (cfg : Config) (avail : String → Bool) (s : ManagerState)
    (hdis : cfg.failoverEnabled = false) :
    switchToNextProvider cfg avail s = (s, false) := by
  unfold switchToNextProvider
  simp only [hdis, Bool.false_eq_true, if_false]

theorem selectFromOrder_facts (avail : String → Bool) (s : ManagerState)
    (hsub : ∀ n, n ∈ s.providerOrder → s.providers.contains n = true)
    (hsel : (selectFromOrder avail s).2 = true) :
    (selectFromOrder avail s).1.providers = s.providers ∧
    (selectFromOrder avail s).1.providerOrder = s.providerOrder ∧
    (∀ c, (selectFromOrder avail s).1.currentProvider = some c →
      s.providers.contains c = true) ∧
    (selectFromOrder avail s).1.currentProvider.isSome = true := by
  unfold selectFromOrder at hsel ⊢
  rcases hfind : s.providerOrder.find? (fun n => isProviderHealthy avail s n) with _ | n
  · dsimp only
    rcases hany : s.providers.find? (fun n => avail n) with _ | m
    · rw [hfind] at hsel
      dsimp only at hsel
      rw [hany] at hsel
      exact absurd hsel (by simp)
    · dsimp only
      refine ⟨rfl, rfl, ?_, rfl⟩
      intro c hc
      injection hc with h
      subst h
      simpa using List.mem_of_find?_eq_some hany
  · dsimp only
    refine ⟨rfl, rfl, ?_, rfl⟩
    intro c hc
    injection hc with h
    subst h
    exact hsub n (List.mem_of_find?_eq_some hfind)

theorem select_success_facts (cfg : Config) (avail : String → Bool) (s : ManagerState)
    (hsub : ∀ n, n ∈ s.providerOrder → s.providers.contains n = true)
    (hsel : (selectBestProvider cfg avail s).2 = true) :
    (selectBestProvider cfg avail s).1.providers = s.providers ∧
    (selectBestProvider cfg avail s).1.providerOrder = s.providerOrder ∧
    (∀ c, (selectBestProvider cfg avail s).1.currentProvider = some c →
      s.providers.contains c = true) ∧
    (selectBestProvider cfg avail s).1.currentProvider.isSome = true := by
  unfold selectBestProvider at hsel ⊢
  rcases hpref : s.preferredProvider with _ | p <;> rw [hpref] at hsel <;> dsimp only at hsel ⊢
  · by_cases hd : (s.providers.contains cfg.defaultProvider &&
        isProviderHealthy avail s cfg.defaultProvider) = true
    · rw [if_pos hd]
      refine ⟨rfl, rfl, ?_, rfl⟩
      intro c hc
      dsimp only at hc
      injection hc with h
      subst h
      exact (Bool.and_eq_true_iff.mp hd).1
    · rw [if_neg hd] at hsel ⊢
      exact selectFromOrder_facts avail s hsub hsel
  · by_cases hp : isProviderHealthy avail s p = true
    · rw [if_pos hp]
      refine ⟨rfl, rfl, ?_, rfl⟩
      intro c hc
      dsimp only at hc
      injection hc with h
      subst h
      exact (isProviderHealthy_spec avail s p hp).1
    · rw [if_neg hp] at hsel ⊢
      exact selectFromOrder_facts avail s hsub hsel

/-- **C3**: on `RateLimitError` or `AuthenticationError` from the current
provider `cur`, exactly one failure is recorded against `cur`; when
failover is disabled no switch happens and the error surfaces with `cur`
as the only call of the iteration; when the switch fails the error
surfaces likewise (the state untouched beyond the recorded failure); and
when the switch succeeds the loop continues IMMEDIATELY on the switched-to
provider (no local retry of `cur`), the target sits strictly after `cur`'s
position in the priority order, is not in `failed` health after the
recorded failure, is available — and `cur` is never invoked again within
the rest of this operation. -/
theorem rate_limit_auth_switch_forward_only {α : Type} (cfg : Config)
    (avail : String → Bool) (opName : String) (op : Nat → String → OpOutcome α)
    (fuel ci : Nat) (s : ManagerState) (le : Option PyError) (cur : String) (e : PyError)
    (hcur : s.currentProvider = some cur)
    (hreg : s.providers.contains cur = true)
    (hop : op ci cur = OpOutcome.fail e)
    (he : (∃ t, e = PyError.rateLimit t) ∨ (∃ t, e = PyError.authError t))
    (hd : s.providerOrder.Nodup) :
    (recordFailure s cur).failureCounts cur = s.failureCounts cur + 1 ∧
    (cfg.failoverEnabled = false →
      runAttempts cfg avail opName op (fuel + 1) ci s le
        = ⟨CallResult.raised e, recordFailure s cur, ci + 1, 0, [cur]⟩) ∧
    ((switchToNextProvider cfg avail (recordFailure s cur)).2 = false →
      (switchToNextProvider cfg avail (recordFailure s cur)).1 = recordFailure s cur ∧
      runAttempts cfg avail opName op (fuel + 1) ci s le
        = ⟨CallResult.raised e, recordFailure s cur, ci + 1, 0, [cur]⟩) ∧
    ((switchToNextProvider cfg avail (recordFailure s cur)).2 = true →
      runAttempts cfg avail opName op (fuel + 1) ci s le
        = ⟨(runAttempts cfg avail opName op fuel (ci + 1)
              (switchToNextProvider cfg avail (recordFailure s cur)).1 (some e)).result,
           (runAttempts cfg avail opName op fuel (ci + 1)
              (switchToNextProvider cfg avail (recordFailure s cur)).1 (some e)).state,
           (runAttempts cfg avail opName op fuel (ci + 1)
              (switchToNextProvider cfg avail (recordFailure s cur)).1 (some e)).nextCallIdx,
           (runAttempts cfg avail opName op fuel (ci + 1)
              (switchToNextProvider cfg avail (recordFailure s cur)).1 (some e)).switchCount + 1,
           cur :: (runAttempts cfg avail opName op fuel (ci + 1)
              (switchToNextProvider cfg avail (recordFailure s cur)).1 (some e)).calls⟩ ∧
      (∃ nxt, (switchToNextProvider cfg avail (recordFailure s cur)).1.currentProvider
            = some nxt ∧
          nxt ∈ s.providerOrder ∧
          posOf s.providerOrder cur < posOf s.providerOrder nxt ∧
          (recordFailure s cur).providerHealth nxt ≠ ProviderHealth.failed ∧
          avail nxt = true) ∧
      cur ∉ (runAttempts cfg avail opName op fuel (ci + 1)
          (switchToNextProvider cfg avail (recordFailure s cur)).1 (some e)).calls) := by
  have hfr := recordFailure_frame s cur
  have hordf : (recordFailure s cur).providerOrder = s.providerOrder := hfr.2.1
  have hcif : currentIndex (recordFailure s cur) = currentIndex s :=
    currentIndex_congr _ _ hfr.2.2.1 hordf
  have hdf : (recordFailure s cur).providerOrder.Nodup := by
    rw [hordf]; exact hd
  have hposcur : currentIndex s = posOf s.providerOrder cur := currentIndex_eq_posOf s cur hcur
  refine ⟨recordFailure_count s cur, ?_, ?_, ?_⟩
  · intro hdis
    have hswd := switch_disabled cfg avail (recordFailure s cur) hdis
    rcases he with ⟨t, rfl⟩ | ⟨t, rfl⟩
    · have := run_step_rate_noswitch cfg avail opName op fuel ci s le cur t hcur hreg hop
        (by rw [hswd])
      rw [this, hswd]
    · have := run_step_auth_noswitch cfg avail opName op fuel ci s le cur t hcur hreg hop
        (by rw [hswd])
      rw [this, hswd]
  · intro hswf
    have h1 : (switchToNextProvider cfg avail (recordFailure s cur)).1
        = recordFailure s cur := by
      rcases switch_cases cfg avail (recordFailure s cur) with ⟨_, h⟩ | ⟨h2, _⟩
      · exact h
      · rw [h2] at hswf
        cases hswf
    refine ⟨h1, ?_⟩
    rcases he with ⟨t, rfl⟩ | ⟨t, rfl⟩
    · rw [run_step_rate_noswitch cfg avail opName op fuel ci s le cur t hcur hreg hop hswf, h1]
    · rw [run_step_auth_noswitch cfg avail opName op fuel ci s le cur t hcur hreg hop hswf, h1]
  · intro hsw
    have hsf := switch_success_facts cfg avail (recordFailure s cur) hdf hsw
    have hords : (switchToNextProvider cfg avail (recordFailure s cur)).1.providerOrder
        = s.providerOrder := hsf.1.trans hordf
    have hnotin : cur ∉ (runAttempts cfg avail opName op fuel (ci + 1)
        (switchToNextProvider cfg avail (recordFailure s cur)).1 (some e)).calls := by
      intro hmem
      have hds : (switchToNextProvider cfg avail
          (recordFailure s cur)).1.providerOrder.Nodup := by rw [hords]; exact hd
      have hmono := calls_pos_monotone cfg avail opName op fuel (ci + 1)
        (switchToNextProvider cfg avail (recordFailure s cur)).1 (some e) hds cur hmem
      rw [hords] at hmono
      have hlt := hsf.2.2.1
      rw [hcif] at hlt
      rw [hposcur] at hlt
      omega
    refine ⟨?_, ?_, hnotin⟩
    · rcases he with ⟨t, rfl⟩ | ⟨t, rfl⟩
      · exact run_step_rate_switch cfg avail opName op fuel ci s le cur t hcur hreg hop hsw
      · exact run_step_auth_switch cfg avail opName op fuel ci s le cur t hcur hreg hop hsw
    · rcases hsf.2.2.2 with ⟨nxt, hn1, hn2, hn3, hn4⟩
      refine ⟨nxt, hn1, ?_, ?_, ?_, ?_⟩
      · rw [hordf] at hn2
        exact hn2
      · rw [hordf] at hn3
        rw [hcif, hposcur] at hn3
        exact hn3
      · exact (isProviderHealthy_spec avail (recordFailure s cur) nxt hn4).2.1
      · exact (isProviderHealthy_spec avail (recordFailure s cur) nxt hn4).2.2

/-- A two-provider demo configuration (default and priority as in
`config/provider_config.py`, restricted to two registered names). -/
def demoConfig : Config := ⟨"fyers", ["fyers", "shoonya"], true, 3, true⟩

/-- Availability oracle reporting every provider available. -/
def availTrue : String → Bool := fun _ => true

/-- A freshly initialized two-provider manager state. -/
def demoState : ManagerState :=
  ⟨["fyers", "shoonya"], ["fyers", "shoonya"], none, some "fyers",
   fun _ => ProviderHealth.unknown, fun _ => 0, fun _ => false, fun _ => 0⟩

theorem demoState_sub : ∀ n, n ∈ demoState.providerOrder →
    demoState.providers.contains n = true := by
  intro n hn
  simp only [demoState, List.mem_cons, List.not_mem_nil, or_false] at hn
  rcases hn with rfl | rfl <;> decide

/-- A run in which `"fyers"` always hits its rate limit while `"shoonya"`
would return data. -/
def opFyersRateLimited : Nat → String → OpOutcome Nat :=
  fun ci n => if n = "fyers" then OpOutcome.fail (PyError.rateLimit ci)
    else OpOutcome.ok 7

/-- A run in which every provider raises a generic `DataProviderError` on
every call, the error of call `i` being `PyError.generic i`. -/
def opAllGeneric : Nat → String → OpOutcome Nat :=
  fun ci _ => OpOutcome.fail (PyError.generic ci)

/-- Witness for **C3** at the concrete two-provider state: the rate-limited
`"fyers"` records exactly one failure and is never called again after the
switch. -/
theorem rate_limit_auth_switch_forward_only_witness :
    (recordFailure demoState "fyers").failureCounts "fyers"
        = demoState.failureCounts "fyers" + 1 ∧
    "fyers" ∉ (runAttempts demoConfig availTrue "get_stock_info" opFyersRateLimited 3 1
        (switchToNextProvider demoConfig availTrue (recordFailure demoState "fyers")).1
        (some (PyError.rateLimit 0))).calls := by
  have h := rate_limit_auth_switch_forward_only demoConfig availTrue "get_stock_info"
    opFyersRateLimited 3 0 demoState none "fyers" (PyError.rateLimit 0) rfl (by decide)
    (by decide) (Or.inl ⟨0, rfl⟩) (by decide)
  exact ⟨h.1, (h.2.2.2 (by decide)).2.2⟩

/-- **C9**: with every call failing, a single top-level operation performs
at most N provider switches, where N is the number of registered
providers, and ends with an exception raised (the model is a structurally
recursive function, so the loop terminates on every input by
construction).  Hypotheses: the priority order has no duplicates and lists
only registered providers, as `_update_provider_order` guarantees. -/
theorem all_providers_fail_bounded_switches {α : Type} (cfg : Config)
    (avail : String → Bool) (opName : String) (op : Nat → String → OpOutcome α)
    (s : ManagerState) (hd : s.providerOrder.Nodup)
    (hsub : ∀ n, n ∈ s.providerOrder → s.providers.contains n = true)
    (hfail : ∀ (i : Nat) (n : String), ∃ e, op i n = OpOutcome.fail e) :
    (tryWithIntelligentFallback cfg avail opName op s).switchCount ≤ s.providers.length ∧
    (tryWithIntelligentFallback cfg avail opName op s).result.isRaise = true := by
  have hlen : s.providerOrder.length ≤ s.providers.length := by
    have hss : s.providerOrder ⊆ s.providers := fun n hn => by simpa using hsub n hn
    exact (List.subperm_of_subset hd hss).length_le
  unfold tryWithIntelligentFallback
  dsimp only
  cases hselb : (selectBestProvider cfg avail s).2
  · simp only [Bool.false_eq_true, if_false]
    exact ⟨Nat.zero_le _, rfl⟩
  · simp only [if_true]
    have hsf := select_success_facts cfg avail s hsub hselb
    have hds : (selectBestProvider cfg avail s).1.providerOrder.Nodup := by
      rw [hsf.2.1]; exact hd
    constructor
    · have hb := switch_count_bound cfg avail opName op (cfg.retryAttempts + 1) 0
        (selectBestProvider cfg avail s).1 none hds
      rw [hsf.2.1] at hb
      omega
    · refine all_fail_raises cfg avail opName op hfail (cfg.retryAttempts + 1) 0
        (selectBestProvider cfg avail s).1 none ?_ ?_ hsf.2.2.2
      · intro c hc
        rw [hsf.1]
        exact hsf.2.2.1 c hc
      · intro n hn
        rw [hsf.2.1] at hn
        rw [hsf.1]
        exact hsub n hn

/-- Witness for **C9** at the concrete two-provider state with every call
failing generically. -/
theorem all_providers_fail_bounded_switches_witness :
    (tryWithIntelligentFallback demoConfig availTrue "get_stock_info" opAllGeneric
        demoState).switchCount ≤ demoState.providers.length ∧
    (tryWithIntelligentFallback demoConfig availTrue "get_stock_info" opAllGeneric
        demoState).result.isRaise = true :=
  all_providers_fail_bounded_switches demoConfig availTrue "get_stock_info" opAllGeneric
    demoState (by decide) demoState_sub (fun i _ => ⟨PyError.generic i, rfl⟩)

/-- Counterexample to **C7** as stated: with both providers failing every
call, the fallback protocol internally ends with the last error raised
(`PyError.generic 3`, the error of the final call), but the top-level
caller-facing `get_stock_info` — whose body is
`try: ... except Exception: return None` — returns `None` instead of
raising it. -/
theorem top_level_call_swallows_last_error :
    (tryWithIntelligentFallback demoConfig availTrue "get_stock_info" opAllGeneric
        demoState).result = CallResult.raised (PyError.generic 3) ∧
    (publicCall demoConfig availTrue "get_stock_info" opAllGeneric demoState).1 = none := by
  exact ⟨by decide, by decide⟩

/-- **C7 (amended)**: when every provider fails on every call, the INNER
fallback protocol `_try_with_intelligent_fallback` raises the last error
encountered (the error of its final call — not an aggregate, not a silent
empty result), but the top-level caller-facing wrappers (`get_stock_info`,
`get_historical_data`) catch every exception and return `None`. -/
theorem inner_raises_last_error_wrapper_returns_none {α : Type} (cfg : Config)
    (avail : String → Bool) (opName : String) (op : Nat → String → OpOutcome α)
    (errOf : Nat → PyError) (s : ManagerState)
    (hsub : ∀ n, n ∈ s.providerOrder → s.providers.contains n = true)
    (hop : ∀ (i : Nat) (n : String), op i n = OpOutcome.fail (errOf i)) :
    ((selectBestProvider cfg avail s).2 = true →
      (tryWithIntelligentFallback cfg avail opName op s).result
        = CallResult.raised (errOf
            ((tryWithIntelligentFallback cfg avail opName op s).nextCallIdx - 1)) ∧
      1 ≤ (tryWithIntelligentFallback cfg avail opName op s).nextCallIdx) ∧
    (publicCall cfg avail opName op s).1 = none := by
  have hA : (selectBestProvider cfg avail s).2 = true →
      (tryWithIntelligentFallback cfg avail opName op s).result
        = CallResult.raised (errOf
            ((tryWithIntelligentFallback cfg avail opName op s).nextCallIdx - 1)) ∧
      1 ≤ (tryWithIntelligentFallback cfg avail opName op s).nextCallIdx := by
    intro hselb
    have hsf := select_success_facts cfg avail s hsub hselb
    unfold tryWithIntelligentFallback
    dsimp only
    simp only [hselb, if_true]
    refine all_fail_last_error cfg avail opName op errOf hop (cfg.retryAttempts + 1) 0
      (selectBestProvider cfg avail s).1 none ?_ ?_ hsf.2.2.2 (by omega)
    · intro c hc
      rw [hsf.1]
      exact hsf.2.2.1 c hc
    · intro n hn
      rw [hsf.2.1] at hn
      rw [hsf.1]
      exact hsub n hn
  refine ⟨hA, ?_⟩
  unfold publicCall
  dsimp only
  cases hselb : (selectBestProvider cfg avail s).2
  · unfold tryWithIntelligentFallback
    dsimp only
    rw [hselb]
    simp only [Bool.false_eq_true, if_false]
  · rw [(hA hselb).1]

/-- Witness for **C7 (amended)** at the concrete two-provider state. -/
theorem inner_raises_last_error_wrapper_returns_none_witness :
    (tryWithIntelligentFallback demoConfig availTrue "get_stock_info" opAllGeneric
        demoState).result
      = CallResult.raised (PyError.generic
          ((tryWithIntelligentFallback demoConfig availTrue "get_stock_info" opAllGeneric
              demoState).nextCallIdx - 1)) ∧
    (publicCall demoConfig availTrue "get_stock_info" opAllGeneric demoState).1 = none := by
  have h := inner_raises_last_error_wrapper_returns_none demoConfig availTrue
    "get_stock_info" opAllGeneric PyError.generic demoState demoState_sub (fun _ _ => rfl)
  exact ⟨(h.1 (by decide)).1, h.2⟩

end StockAdvisory
